import Mathlib

/-!
Shallow embedding of the M3U8 extractor (src/m3u8_extractor.py).

Times are rationals measured in milliseconds.  The nondeterminism of one
extraction attempt (which network responses the page emits and when, the
instant the navigation task settles, an error raised while releasing the
page) is supplied by an explicit environment `AttemptEnv`; a batch run draws
one environment per attempt from an oracle `Nat → AttemptEnv` indexed by the
number of attempts dispatched so far, so first-pass and retry attempts for
the same URL may behave differently.  Browser startup and verbose logging
are I/O with no bearing on the values the extractor returns and are not
modelled, except for the pool lifecycle state needed by `close`.
-/

namespace M3U8

/-- Initial-segment test on character lists (Bool-valued). -/
def leadsWith : List Char → List Char → Bool
  | [], _ => true
  | _ :: _, [] => false
  | a :: as, b :: bs => a == b && leadsWith as bs

/-- Substring test on character lists. -/
def hasSub (needle : List Char) : List Char → Bool
  | [] => leadsWith needle []
  | c :: rest => leadsWith needle (c :: rest) || hasSub needle rest

/-- Case-insensitive substring match: models `re.search(pattern, url, re.IGNORECASE)`
for the literal (dot-escaped) patterns the extractor ships, e.g. the pattern
written `playlist\.m3u8` in the source matches exactly the substring
`playlist.m3u8`.  Patterns are stored here with the escape removed. -/
def containsCI (url pat : String) : Bool :=
  hasSub (pat.toList.map Char.toLower) (url.toList.map Char.toLower)

/-- Configuration: `M3U8Extractor.__init__` defaults merged with caller
overrides (`{**default_config, **(config or {})}`), never mutated after. -/
structure Config where
  timeout : ℚ := 20000
  concurrency : Nat := 10
  retries : Nat := 1
  verbose : Bool := false
  m3u8_patterns : List String := ["playlist.m3u8", "index.m3u8", ".m3u8"]
  headless : Bool := true
  deriving DecidableEq

/-- Result dictionary returned by `extract_single`
(keys embedUrl, m3u8Url, success, time, error). -/
structure ExtractionResult where
  embedUrl : String
  m3u8Url : Option String
  success : Bool
  time : ℚ
  error : Option String
  deriving DecidableEq

/-- The `self.stats` dictionary. -/
structure Stats where
  successful : Nat
  failed : Nat
  total_time : ℚ
  average_time : ℚ
  deriving DecidableEq

/-- Stats as set by `__init__`. -/
def initStats : Stats := { successful := 0, failed := 0, total_time := 0, average_time := 0 }

/-- The dictionary `reset_stats` installs. -/
def reset_stats : Stats := { successful := 0, failed := 0, total_time := 0, average_time := 0 }

/-- Environment of one extraction attempt: the timestamped response URLs the
page would hand to `handle_response` (in arrival order), the instant the
`page.goto` task settles (`none` if it outlasts the race), and an error
raised by `page.close` (the only awaited call inside the `try` block whose
exception reaches the `except` branch). -/
structure AttemptEnv where
  responses : List (ℚ × String)
  gotoAt : Option ℚ
  closeError : Option String
  deriving DecidableEq

/-- Python truthiness of `found_m3u8`: `None` and the empty string are falsy. -/
def pyTruthy : Option String → Bool
  | none => false
  | some s => s != ""

/-- Whether some configured pattern matches the URL (the `for pattern in
self.config['m3u8_patterns']` loop body's test, any pattern sufficing). -/
def matchesAny (patterns : List String) (url : String) : Bool :=
  patterns.any (fun p => containsCI url p)

/-- One call of the `handle_response` listener acting on the `found_m3u8`
slot: return early if the slot is truthy, otherwise record the URL when a
pattern matches, else leave the slot as it was. -/
def handle_response (patterns : List String) (found : Option String) (url : String) : Option String :=
  if pyTruthy found then found
  else if matchesAny patterns url then some url else found

/-- Value of the `found_m3u8` slot after the listener has processed the given
URLs in order, starting from `None`. -/
def runSlot (patterns : List String) (urls : List String) : Option String :=
  urls.foldl (handle_response patterns) none

/-- Instant at which `m3u8_future` resolves: the time of the first response
whose URL matches a pattern (`set_result` fires on the first match). -/
def futureAt (patterns : List String) (responses : List (ℚ × String)) : Option ℚ :=
  (responses.find? (fun r => matchesAny patterns r.2)).map (fun r => r.1)

/-- Minimum of a rational and an optional rational (an absent signal never
wins the race). -/
def optMin (d : ℚ) : Option ℚ → ℚ
  | none => d
  | some t => min d t

/-- Instant the `asyncio.wait(..., return_when=FIRST_COMPLETED)` race ends:
the earliest of the timeout, the future resolving, and the goto task
settling. -/
def raceEnd (cfg : Config) (env : AttemptEnv) : ℚ :=
  optMin (optMin cfg.timeout (futureAt cfg.m3u8_patterns env.responses)) env.gotoAt

/-- Response URLs the listener has processed by the time the race ends. -/
def delivered (cfg : Config) (env : AttemptEnv) : List String :=
  (env.responses.filter (fun r => decide (r.1 ≤ raceEnd cfg env))).map (fun r => r.2)

/-- `M3U8Extractor.extract_single`: run the three-way race, then either the
normal paths (success when `found_m3u8` is truthy, otherwise the timeout
failure) or the `except` branch when releasing the page raised.  Elapsed
time is the race-resolution instant.  Returns the result dictionary paired
with the updated `self.stats`. -/
def extract_single (cfg : Config) (env : AttemptEnv) (embed_url : String) (st : Stats) :
    ExtractionResult × Stats :=
  let elapsed := raceEnd cfg env
  match env.closeError with
  | some e =>
    ({ embedUrl := embed_url, m3u8Url := none, success := false, time := elapsed,
       error := some e },
     { st with failed := st.failed + 1 })
  | none =>
    let found := runSlot cfg.m3u8_patterns (delivered cfg env)
    if pyTruthy found then
      let s := st.successful + 1
      let t := st.total_time + elapsed
      ({ embedUrl := embed_url, m3u8Url := found, success := true, time := elapsed,
         error := none },
       { successful := s, failed := st.failed, total_time := t,
         average_time := t / (s : ℚ) })
    else
      ({ embedUrl := embed_url, m3u8Url := none, success := false, time := elapsed,
         error := some "M3U8 URL not found within timeout" },
       { st with failed := st.failed + 1 })

/-- Result component of `extract_single`, which does not depend on the
incoming stats. -/
def resultOf (cfg : Config) (env : AttemptEnv) (embed_url : String) : ExtractionResult :=
  (extract_single cfg env embed_url initStats).1

/-- State threaded through a batch run: the shared stats plus the log of
URLs attempted so far in dispatch order (its length numbers the attempts
and indexes the oracle). -/
structure RunState where
  stats : Stats
  log : List String
  deriving DecidableEq

/-- Dispatch one group of URLs (the inner `asyncio.gather`): results come
back in dispatch order, each attempt consuming the next oracle environment. -/
def runGroup (cfg : Config) (orc : Nat → AttemptEnv) :
    List String → RunState → List ExtractionResult × RunState
  | [], s => ([], s)
  | url :: rest, s =>
    let pr := extract_single cfg (orc s.log.length) url s.stats
    let next := runGroup cfg orc rest { stats := pr.2, log := s.log ++ [url] }
    (pr.1 :: next.1, next.2)

/-- Chunking worker, structurally recursive on a fuel argument so that it
evaluates by kernel reduction; `chunkList` supplies fuel equal to the list
length, which always suffices. -/
def chunkGo (n : Nat) : Nat → List String → List (List String)
  | _, [] => []
  | 0, _ :: _ => []
  | fuel + 1, x :: xs =>
    if n = 0 then []
    else List.take n (x :: xs) :: chunkGo n fuel (List.drop n (x :: xs))

/-- Consecutive chunks of size `n` (the `for i in range(0, len(embed_urls),
self.config['concurrency'])` slicing).  `n = 0` is outside the model:
Python's `range` rejects a zero step. -/
def chunkList (n : Nat) (l : List String) : List (List String) :=
  chunkGo n l.length l

/-- Concatenation of a list of lists. -/
def listJoin {α : Type} : List (List α) → List α
  | [] => []
  | g :: gs => g ++ listJoin gs

/-- Run the groups one after another: a group is fully awaited before the
next one starts. -/
def runGroups (cfg : Config) (orc : Nat → AttemptEnv) :
    List (List String) → RunState → List ExtractionResult × RunState
  | [], s => ([], s)
  | g :: gs, s =>
    let p := runGroup cfg orc g s
    let q := runGroups cfg orc gs p.2
    (p.1 ++ q.1, q.2)

/-- `M3U8Extractor.extract_batch`: slice the input by `concurrency` and run
the groups in order, extending the output list group by group. -/
def extract_batch (cfg : Config) (orc : Nat → AttemptEnv) (embed_urls : List String)
    (s : RunState) : List ExtractionResult × RunState :=
  runGroups cfg orc (chunkList cfg.concurrency embed_urls) s

/-- One iteration of the retry-merge loop over `results` for a single
`retry_result`: `results[i] = retry_result` wherever the URLs agree and the
retry succeeded (the replacement keeps the URL, so iterating over the
mutating list equals this map). -/
def mergeRetry (results : List ExtractionResult) (rr : ExtractionResult) :
    List ExtractionResult :=
  results.map (fun r => if r.embedUrl == rr.embedUrl && rr.success then rr else r)

/-- The full `for retry_result in retry_results` merge loop. -/
def mergeRetries (results rrs : List ExtractionResult) : List ExtractionResult :=
  rrs.foldl mergeRetry results

/-- `M3U8Extractor.extract`: one batch pass, then, when `retries > 0` and
some result failed, one batch pass over the failed URLs followed by the
merge loop. -/
def extract (cfg : Config) (orc : Nat → AttemptEnv) (embed_urls : List String)
    (s : RunState) : List ExtractionResult × RunState :=
  let p := extract_batch cfg orc embed_urls s
  if cfg.retries > 0 then
    let failed := p.1.filter (fun r => !r.success)
    if failed.isEmpty then p
    else
      let retry_urls := failed.map (fun r => r.embedUrl)
      let q := extract_batch cfg orc retry_urls p.2
      (mergeRetries p.1 q.1, q.2)
  else p

/-- Events of the batch dispatch schedule for one URL. -/
inductive BatchEvent
  | dispatch (url : String)
  | settle (url : String)
  deriving DecidableEq

/-- Schedule of one group: all its attempts are dispatched, then all of them
settle before anything further happens (`asyncio.gather` is awaited before
the loop continues). -/
def groupTrace (g : List String) : List BatchEvent :=
  g.map BatchEvent.dispatch ++ g.map BatchEvent.settle

/-- Dispatch schedule of a whole batch: the group schedules in order. -/
def batchTrace (cfg : Config) (urls : List String) : List BatchEvent :=
  listJoin ((chunkList cfg.concurrency urls).map groupTrace)

/-- Number of attempts in flight after a sequence of events, starting from
`n` in flight. -/
def inflightFrom (n : Int) (tr : List BatchEvent) : Int :=
  tr.foldl (fun m e => match e with
    | BatchEvent.dispatch _ => m + 1
    | BatchEvent.settle _ => m - 1) n

/-- Number of attempts in flight after a sequence of events. -/
def inflight (tr : List BatchEvent) : Int := inflightFrom 0 tr

/-- Statistics invariant claimed by the spec: the average successful
duration is the cumulative successful duration over the successful count
when the latter is positive, and 0 when it is 0. -/
def StatsInv (st : Stats) : Prop :=
  (st.successful = 0 → st.average_time = 0) ∧
  (0 < st.successful → st.average_time = st.total_time / (st.successful : ℚ))

/-- Pool lifecycle state: whether `self.playwright` has ever been assigned
(`__init__` does not assign it; `initialize` does), whether `self.browser`
is set, and how many entries `self.contexts` holds. -/
structure PoolState where
  playwrightSet : Bool
  browser : Bool
  contexts : Nat
  deriving DecidableEq

/-- Pool state right after `__init__`: `self.browser = None`,
`self.contexts = []`, and no `playwright` attribute at all. -/
def initialPool : PoolState := { playwrightSet := false, browser := false, contexts := 0 }

/-- `M3U8Extractor.initialize`: start the engine, launch the browser, and
append `concurrency` fresh contexts to `self.contexts`. -/
def initPool (cfg : Config) (s : PoolState) : PoolState :=
  { playwrightSet := true, browser := true, contexts := s.contexts + cfg.concurrency }

/-- Actions `close` performs, in order. -/
inductive CloseAct
  | closeContext
  | closeBrowser
  | stopPlaywright
  deriving DecidableEq

/-- Outcome of one `close()` call: the teardown actions that ran, the
exception that escaped (if any), and the resulting pool state. -/
structure CloseOutcome where
  acts : List CloseAct
  raised : Option String
  state : PoolState
  deriving DecidableEq

/-- `M3U8Extractor.close`: close every context, close the browser when set,
then `await self.playwright.stop()`.  When `self.playwright` was never
assigned, that attribute access raises and the trailing resets
(`self.contexts = []`, `self.browser = None`) never run. -/
def close (s : PoolState) : CloseOutcome :=
  let acts0 := List.replicate s.contexts CloseAct.closeContext ++
    (if s.browser then [CloseAct.closeBrowser] else [])
  if s.playwrightSet then
    { acts := acts0 ++ [CloseAct.stopPlaywright], raised := none,
      state := { playwrightSet := true, browser := false, contexts := 0 } }
  else
    { acts := acts0,
      raised := some "AttributeError: M3U8Extractor object has no attribute playwright",
      state := s }

/-! Concrete fixtures used by witnesses and counterexamples. -/

/-- Default configuration. -/
def cfgW : Config := {}

/-- Default configuration with a small pool, retries raised to 3. -/
def cfgR3 : Config := { retries := 3, concurrency := 2 }

/-- Environment of an attempt that observes a manifest response 500 ms in. -/
def envOk : AttemptEnv :=
  { responses := [(500, "https://cdn.example/live/playlist.m3u8")], gotoAt := none,
    closeError := none }

/-- Environment of an attempt that observes nothing and whose navigation
outlasts the race: the timeout wins. -/
def envFail : AttemptEnv := { responses := [], gotoAt := none, closeError := none }

/-- Environment whose page release raises. -/
def envErr : AttemptEnv := { responses := [], gotoAt := some 900, closeError := some "Target closed" }

/-- Environment where navigation settles at 1000 ms with nothing observed. -/
def envC4 : AttemptEnv := { responses := [], gotoAt := some 1000, closeError := none }

/-- Oracle: the first attempt fails, every later attempt succeeds. -/
def orcW : Nat → AttemptEnv := fun k => if k == 0 then envFail else envOk

/-- Fresh run state. -/
def s0 : RunState := { stats := initStats, log := [] }

/-- A failed first-pass result for URL `u`. -/
def rA : ExtractionResult :=
  { embedUrl := "u", m3u8Url := none, success := false, time := 20000,
    error := some "M3U8 URL not found within timeout" }

/-- A successful retry result for URL `u`. -/
def rAretry : ExtractionResult :=
  { embedUrl := "u", m3u8Url := some "https://cdn.example/live/playlist.m3u8", success := true,
    time := 500, error := none }

/-- A successful first-pass result for URL `u`. -/
def rOk : ExtractionResult :=
  { embedUrl := "u", m3u8Url := some "https://old.example/playlist.m3u8", success := true,
    time := 700, error := none }

/-- A distinct successful retry result for URL `u`. -/
def rNew : ExtractionResult :=
  { embedUrl := "u", m3u8Url := some "https://new.example/playlist.m3u8", success := true,
    time := 800, error := none }

end M3U8

namespace M3U8

theorem extract_single_fst (cfg : Config) (env : AttemptEnv) (url : String) (st : Stats) :
    (extract_single cfg env url st).1 = resultOf cfg env url := by
  cases h : env.closeError <;>
    simp only [extract_single, resultOf, h, initStats] <;> split <;> rfl

theorem resultOf_embedUrl (cfg : Config) (env : AttemptEnv) (url : String) :
    (resultOf cfg env url).embedUrl = url := by
  cases h : env.closeError <;>
    simp only [resultOf, extract_single, h, initStats] <;> (try split) <;> rfl

theorem runGroup_log (cfg : Config) (orc : Nat → AttemptEnv) :
    ∀ (urls : List String) (s : RunState), (runGroup cfg orc urls s).2.log = s.log ++ urls := by
  intro urls
  induction urls with
  | nil => intro s; simp [runGroup]
  | cons u rest ih =>
    intro s
    simp [runGroup, ih]

theorem runGroup_length (cfg : Config) (orc : Nat → AttemptEnv) :
    ∀ (urls : List String) (s : RunState), (runGroup cfg orc urls s).1.length = urls.length := by
  intro urls
  induction urls with
  | nil => intro s; simp [runGroup]
  | cons u rest ih => intro s; simp [runGroup, ih]

theorem runGroup_getElem (cfg : Config) (orc : Nat → AttemptEnv) :
    ∀ (urls : List String) (s : RunState) (i : Nat) (hi : i < urls.length),
      (runGroup cfg orc urls s).1[i]? =
        some (resultOf cfg (orc (s.log.length + i)) (urls.get ⟨i, hi⟩)) := by
  intro urls
  induction urls with
  | nil => intro s i hi; simp at hi
  | cons u rest ih =>
    intro s i hi
    cases i with
    | zero => simp [runGroup, extract_single_fst]
    | succ i =>
      have := ih { stats := (extract_single cfg (orc s.log.length) u s.stats).2,
                   log := s.log ++ [u] } i (by simpa using Nat.lt_of_succ_lt_succ hi)
      simp only [runGroup, List.getElem?_cons_succ]
      rw [this]
      simp [Nat.add_assoc, Nat.add_comm 1 i]

theorem runGroup_map_embedUrl (cfg : Config) (orc : Nat → AttemptEnv) :
    ∀ (urls : List String) (s : RunState),
      (runGroup cfg orc urls s).1.map (fun r => r.embedUrl) = urls := by
  intro urls
  induction urls with
  | nil => intro s; simp [runGroup]
  | cons u rest ih =>
    intro s
    simp [runGroup, ih, extract_single_fst, resultOf_embedUrl]

theorem runGroup_append (cfg : Config) (orc : Nat → AttemptEnv) :
    ∀ (a b : List String) (s : RunState),
      runGroup cfg orc (a ++ b) s =
        ((runGroup cfg orc a s).1 ++ (runGroup cfg orc b (runGroup cfg orc a s).2).1,
         (runGroup cfg orc b (runGroup cfg orc a s).2).2) := by
  intro a
  induction a with
  | nil => intro b s; simp [runGroup]
  | cons u rest ih =>
    intro b s
    simp [runGroup, ih]

theorem runGroups_eq (cfg : Config) (orc : Nat → AttemptEnv) :
    ∀ (cs : List (List String)) (s : RunState),
      runGroups cfg orc cs s = runGroup cfg orc (listJoin cs) s := by
  intro cs
  induction cs with
  | nil => intro s; simp [runGroups, listJoin, runGroup]
  | cons g gs ih =>
    intro s
    simp [runGroups, listJoin, ih, runGroup_append]

theorem chunkGo_join (n : Nat) (hn : 0 < n) :
    ∀ (fuel : Nat) (l : List String), l.length ≤ fuel → listJoin (chunkGo n fuel l) = l := by
  intro fuel
  induction fuel with
  | zero =>
    intro l hl
    have : l = [] := List.eq_nil_of_length_eq_zero (Nat.le_zero.mp hl)
    subst this; rfl
  | succ fuel ih =>
    intro l hl
    cases l with
    | nil => rfl
    | cons x xs =>
      have hn' : ¬ n = 0 := Nat.pos_iff_ne_zero.mp hn
      have hd : (List.drop n (x :: xs)).length ≤ fuel := by
        rw [List.length_drop]
        simp only [List.length_cons] at hl ⊢
        omega
      simp only [chunkGo, hn', if_false, listJoin]
      rw [ih (List.drop n (x :: xs)) hd]
      exact List.take_append_drop n (x :: xs)

theorem chunkList_join (n : Nat) (hn : 0 < n) (l : List String) :
    listJoin (chunkList n l) = l :=
  chunkGo_join n hn l.length l le_rfl

theorem chunkGo_mem_length (n : Nat) :
    ∀ (fuel : Nat) (l : List String) (g : List String), g ∈ chunkGo n fuel l → g.length ≤ n := by
  intro fuel
  induction fuel with
  | zero =>
    intro l g hg
    cases l <;> simp [chunkGo] at hg
  | succ fuel ih =>
    intro l g hg
    cases l with
    | nil => simp [chunkGo] at hg
    | cons x xs =>
      by_cases hn' : n = 0
      · simp [chunkGo, hn'] at hg
      · simp only [chunkGo, hn', if_false, List.mem_cons] at hg
        cases hg with
        | inl h => subst h; simpa using List.length_take_le n (x :: xs)
        | inr h => exact ih _ _ h

theorem extract_batch_eq (cfg : Config) (orc : Nat → AttemptEnv) (urls : List String)
    (s : RunState) (hc : 0 < cfg.concurrency) :
    extract_batch cfg orc urls s = runGroup cfg orc urls s := by
  unfold extract_batch
  rw [runGroups_eq, chunkList_join cfg.concurrency hc]

end M3U8

namespace M3U8

theorem mergeRetry_getElem (results : List ExtractionResult) (rr : ExtractionResult) (i : Nat) :
    (mergeRetry results rr)[i]? =
      results[i]?.map (fun r => if r.embedUrl == rr.embedUrl && rr.success then rr else r) := by
  simp [mergeRetry]

theorem mergeRetries_cons (results : List ExtractionResult) (rr : ExtractionResult)
    (rest : List ExtractionResult) :
    mergeRetries results (rr :: rest) = mergeRetries (mergeRetry results rr) rest := rfl

theorem mergeRetries_length :
    ∀ (rrs results : List ExtractionResult), (mergeRetries results rrs).length = results.length := by
  intro rrs
  induction rrs with
  | nil => intro results; rfl
  | cons rr rest ih =>
    intro results
    rw [mergeRetries_cons, ih]
    simp [mergeRetry]

theorem mergeRetries_pointwise :
    ∀ (rrs results : List ExtractionResult) (i : Nat) (r : ExtractionResult),
      results[i]? = some r →
      ∃ r', (mergeRetries results rrs)[i]? = some r' ∧ r'.embedUrl = r.embedUrl ∧
        ((r' = r ∧ ∀ rr ∈ rrs, rr.embedUrl = r.embedUrl → rr.success = false) ∨
         (r' ∈ rrs ∧ r'.success = true)) := by
  intro rrs
  induction rrs with
  | nil =>
    intro results i r hr
    exact ⟨r, hr, rfl, Or.inl ⟨rfl, by simp⟩⟩
  | cons rr0 rest ih =>
    intro results i r hr
    have h1 : (mergeRetry results rr0)[i]? =
        some (if r.embedUrl == rr0.embedUrl && rr0.success then rr0 else r) := by
      rw [mergeRetry_getElem, hr]; rfl
    by_cases hc : (r.embedUrl == rr0.embedUrl && rr0.success) = true
    · have hbeq : r.embedUrl = rr0.embedUrl := by
        have := (Bool.and_eq_true _ _).mp hc
        exact beq_iff_eq.mp this.1
      have hsucc : rr0.success = true := ((Bool.and_eq_true _ _).mp hc).2
      rw [if_pos hc] at h1
      obtain ⟨r', hget, hurl, hcase⟩ := ih (mergeRetry results rr0) i rr0 h1
      refine ⟨r', by rw [mergeRetries_cons]; exact hget, by rw [hurl, hbeq], ?_⟩
      cases hcase with
      | inl h => exact Or.inr ⟨by rw [h.1]; exact List.mem_cons_self rr0 rest, by rw [h.1]; exact hsucc⟩
      | inr h => exact Or.inr ⟨List.mem_cons_of_mem rr0 h.1, h.2⟩
    · rw [if_neg hc] at h1
      obtain ⟨r', hget, hurl, hcase⟩ := ih (mergeRetry results rr0) i r h1
      refine ⟨r', by rw [mergeRetries_cons]; exact hget, hurl, ?_⟩
      cases hcase with
      | inl h =>
        refine Or.inl ⟨h.1, ?_⟩
        intro rr hmem hu
        rcases List.mem_cons.mp hmem with hh | hh
        · subst hh
          have hb : (r.embedUrl == rr.embedUrl) = true := beq_iff_eq.mpr hu.symm
          cases h' : rr.success with
          | false => rfl
          | true => exact absurd (by rw [Bool.and_eq_true]; exact ⟨hb, h'⟩) hc
        · exact h.2 rr hh hu
      | inr h => exact Or.inr ⟨List.mem_cons_of_mem rr0 h.1, h.2⟩

theorem extract_cases (cfg : Config) (orc : Nat → AttemptEnv) (urls : List String)
    (s : RunState) :
    (extract cfg orc urls s).1 = (extract_batch cfg orc urls s).1 ∨
    (extract cfg orc urls s).1 =
      mergeRetries (extract_batch cfg orc urls s).1
        (extract_batch cfg orc
          (((extract_batch cfg orc urls s).1.filter (fun r => !r.success)).map
            (fun r => r.embedUrl))
          (extract_batch cfg orc urls s).2).1 := by
  simp only [extract]
  by_cases h1 : cfg.retries > 0
  · rw [if_pos h1]
    by_cases h2 : ((extract_batch cfg orc urls s).1.filter (fun r => !r.success)).isEmpty
    · rw [if_pos h2]; left; rfl
    · rw [if_neg h2]; right; rfl
  · rw [if_neg h1]; left; rfl

theorem extract_length (cfg : Config) (orc : Nat → AttemptEnv) (urls : List String)
    (s : RunState) (hc : 0 < cfg.concurrency) :
    (extract cfg orc urls s).1.length = urls.length := by
  rcases extract_cases cfg orc urls s with h | h <;> rw [h]
  · rw [extract_batch_eq cfg orc urls s hc]
    exact runGroup_length cfg orc urls s
  · rw [mergeRetries_length, extract_batch_eq cfg orc urls s hc]
    exact runGroup_length cfg orc urls s

theorem extract_state_zero (cfg : Config) (orc : Nat → AttemptEnv) (urls : List String)
    (s : RunState) (h0 : cfg.retries = 0) :
    extract cfg orc urls s = extract_batch cfg orc urls s := by
  simp [extract, h0]

theorem extract_snd_pos (cfg : Config) (orc : Nat → AttemptEnv) (urls : List String)
    (s : RunState) (h0 : 0 < cfg.retries) :
    (extract cfg orc urls s).2 =
      (extract_batch cfg orc
        (((extract_batch cfg orc urls s).1.filter (fun r => !r.success)).map
          (fun r => r.embedUrl))
        (extract_batch cfg orc urls s).2).2 := by
  simp only [extract]
  rw [if_pos h0]
  by_cases h2 : ((extract_batch cfg orc urls s).1.filter (fun r => !r.success)).isEmpty
  · rw [if_pos h2]
    have he : ((extract_batch cfg orc urls s).1.filter (fun r => !r.success)) = [] := by
      simpa using h2
    rw [he]
    rfl
  · rw [if_neg h2]

theorem extract_batch_log (cfg : Config) (orc : Nat → AttemptEnv) (urls : List String)
    (s : RunState) (hc : 0 < cfg.concurrency) :
    (extract_batch cfg orc urls s).2.log = s.log ++ urls := by
  rw [extract_batch_eq cfg orc urls s hc]
  exact runGroup_log cfg orc urls s

theorem failedUrls_sublist (cfg : Config) (orc : Nat → AttemptEnv) (urls : List String)
    (s : RunState) (hc : 0 < cfg.concurrency) :
    (((extract_batch cfg orc urls s).1.filter (fun r => !r.success)).map
      (fun r => r.embedUrl)).Sublist urls := by
  rw [extract_batch_eq cfg orc urls s hc]
  have h1 : ((runGroup cfg orc urls s).1.filter (fun r => !r.success)).Sublist
      (runGroup cfg orc urls s).1 := List.filter_sublist _
  have h2 := h1.map (fun r => r.embedUrl)
  rwa [runGroup_map_embedUrl] at h2

theorem inflightFrom_append (n : Int) (tr1 tr2 : List BatchEvent) :
    inflightFrom n (tr1 ++ tr2) = inflightFrom (inflightFrom n tr1) tr2 := by
  simp [inflightFrom, List.foldl_append]

theorem inflightFrom_dispatches :
    ∀ (g : List String) (n : Int),
      inflightFrom n (g.map BatchEvent.dispatch) = n + g.length := by
  intro g
  induction g with
  | nil => intro n; simp [inflightFrom]
  | cons x g' ih =>
    intro n
    have : inflightFrom n ((x :: g').map BatchEvent.dispatch) =
        inflightFrom (n + 1) (g'.map BatchEvent.dispatch) := rfl
    rw [this, ih]
    simp only [List.length_cons]
    push_cast
    ring

theorem inflightFrom_settles :
    ∀ (g : List String) (n : Int),
      inflightFrom n (g.map BatchEvent.settle) = n - g.length := by
  intro g
  induction g with
  | nil => intro n; simp [inflightFrom]
  | cons x g' ih =>
    intro n
    have : inflightFrom n ((x :: g').map BatchEvent.settle) =
        inflightFrom (n - 1) (g'.map BatchEvent.settle) := rfl
    rw [this, ih]
    simp only [List.length_cons]
    push_cast
    ring

theorem groupTrace_total (g : List String) (n : Int) :
    inflightFrom n (groupTrace g) = n := by
  rw [groupTrace, inflightFrom_append, inflightFrom_dispatches, inflightFrom_settles]
  ring

theorem append_split {α : Type} :
    ∀ (a p t b : List α), p ++ t = a ++ b →
      (∃ t1, p ++ t1 = a) ∨ (∃ q, p = a ++ q ∧ ∃ t2, q ++ t2 = b) := by
  intro a
  induction a with
  | nil =>
    intro p t b h
    right
    exact ⟨p, rfl, t, h⟩
  | cons x a' ih =>
    intro p t b h
    cases p with
    | nil => exact Or.inl ⟨x :: a', rfl⟩
    | cons y p' =>
      simp only [List.cons_append] at h
      injection h with h1 h2
      rcases ih p' t b h2 with ⟨t1, ht1⟩ | ⟨q, hq, t2, ht2⟩
      · exact Or.inl ⟨t1, by simp [List.cons_append, h1, ht1]⟩
      · exact Or.inr ⟨q, by simp [List.cons_append, h1, hq], t2, ht2⟩

theorem map_split {α β : Type} (f : α → β) :
    ∀ (l : List α) (p t : List β), p ++ t = l.map f →
      ∃ l1 l2, l = l1 ++ l2 ∧ p = l1.map f := by
  intro l
  induction l with
  | nil =>
    intro p t h
    have hp : p = [] := (List.append_eq_nil.mp h).1
    exact ⟨[], [], rfl, by simp [hp]⟩
  | cons x l' ih =>
    intro p t h
    cases p with
    | nil => exact ⟨[], x :: l', rfl, rfl⟩
    | cons y p' =>
      simp only [List.cons_append, List.map_cons] at h
      injection h with h1 h2
      obtain ⟨l1, l2, hl, hp⟩ := ih p' t h2
      exact ⟨x :: l1, l2, by rw [hl]; rfl, by simp [h1, hp]⟩

theorem groupTrace_bound (g : List String) (n : Int) (p t : List BatchEvent)
    (h : p ++ t = groupTrace g) : inflightFrom n p ≤ n + g.length := by
  rw [groupTrace] at h
  rcases append_split (g.map BatchEvent.dispatch) p t (g.map BatchEvent.settle) h with
    ⟨t1, ht1⟩ | ⟨q, hq, t2, ht2⟩
  · obtain ⟨g1, g2, hg, hp⟩ := map_split BatchEvent.dispatch g p t1 ht1
    rw [hp, inflightFrom_dispatches]
    have : g1.length ≤ g.length := by rw [hg]; simp
    omega
  · obtain ⟨g1, g2, hg, hqq⟩ := map_split BatchEvent.settle g q t2 ht2
    rw [hq, inflightFrom_append, inflightFrom_dispatches, hqq, inflightFrom_settles]
    omega

theorem joinTrace_bound (c : Nat) :
    ∀ (cs : List (List String)), (∀ g ∈ cs, g.length ≤ c) →
      ∀ (p t : List BatchEvent), p ++ t = listJoin (cs.map groupTrace) →
        inflightFrom 0 p ≤ (c : Int) := by
  intro cs
  induction cs with
  | nil =>
    intro _ p t h
    have hp : p = [] := (List.append_eq_nil.mp h).1
    simp [hp, inflightFrom]
  | cons g cs ih =>
    intro hlen p t h
    simp only [List.map_cons, listJoin] at h
    rcases append_split (groupTrace g) p t (listJoin (cs.map groupTrace)) h with
      ⟨t1, ht1⟩ | ⟨q, hq, t2, ht2⟩
    · have hb := groupTrace_bound g 0 p t1 ht1
      have hg : g.length ≤ c := hlen g (List.mem_cons_self g cs)
      omega
    · rw [hq, inflightFrom_append, groupTrace_total]
      exact ih (fun g' hg' => hlen g' (List.mem_cons_of_mem g hg')) q t2 ht2

end M3U8

namespace M3U8

theorem pyTruthy_isSome (o : Option String) (h : pyTruthy o = true) : o.isSome = true := by
  cases o with
  | none => simp [pyTruthy] at h
  | some s => rfl

theorem runSlot_stays_none (patterns : List String) :
    ∀ (l : List String), (∀ u ∈ l, matchesAny patterns u = false) →
      List.foldl (handle_response patterns) none l = none := by
  intro l
  induction l with
  | nil => intro _; rfl
  | cons u l' ih =>
    intro hall
    have h0 : handle_response patterns none u = none := by
      simp [handle_response, pyTruthy, hall u (List.mem_cons_self u l')]
    rw [List.foldl_cons, h0]
    exact ih (fun v hv => hall v (List.mem_cons_of_mem u hv))

/-- C2: every attempt returns exactly one result, which is either a success
(`success = true`, a present manifest URL, no error) or a failure
(`success = false`, no manifest URL, a present error description) — never
both, never neither — and an exception raised during the attempt is caught
and converted into such a failure carrying the exception text rather than
propagated (the embedding of `extract_single` is a total function into
results, so no exception ever reaches the caller). -/
theorem C2_result_shape (cfg : Config) (env : AttemptEnv) (url : String) (st : Stats) :
    (((extract_single cfg env url st).1.success = true ∧
        (extract_single cfg env url st).1.m3u8Url.isSome = true ∧
        (extract_single cfg env url st).1.error = none) ∨
      ((extract_single cfg env url st).1.success = false ∧
        (extract_single cfg env url st).1.m3u8Url = none ∧
        (extract_single cfg env url st).1.error.isSome = true)) ∧
    (∀ e, env.closeError = some e →
      (extract_single cfg env url st).1.success = false ∧
      (extract_single cfg env url st).1.error = some e) := by
  constructor
  · cases h : env.closeError with
    | some e =>
      right
      simp [extract_single, h]
    | none =>
      by_cases hf : pyTruthy (runSlot cfg.m3u8_patterns (delivered cfg env)) = true
      · left
        refine ⟨?_, ?_, ?_⟩ <;> simp [extract_single, h, hf, pyTruthy_isSome _ hf]
      · right
        refine ⟨?_, ?_, ?_⟩ <;> simp [extract_single, h, hf]
  · intro e he
    simp [extract_single, he]

/-- C2 witness: a concrete attempt whose page release raises is converted
into a failure result carrying the exception text. -/
theorem C2_witness :
    (envErr.closeError = some "Target closed") ∧
    ((((extract_single cfgW envErr "u" initStats).1.success = true ∧
        (extract_single cfgW envErr "u" initStats).1.m3u8Url.isSome = true ∧
        (extract_single cfgW envErr "u" initStats).1.error = none) ∨
      ((extract_single cfgW envErr "u" initStats).1.success = false ∧
        (extract_single cfgW envErr "u" initStats).1.m3u8Url = none ∧
        (extract_single cfgW envErr "u" initStats).1.error.isSome = true)) ∧
     ((extract_single cfgW envErr "u" initStats).1.success = false ∧
      (extract_single cfgW envErr "u" initStats).1.error = some "Target closed")) :=
  ⟨by decide,
   (C2_result_shape cfgW envErr "u" initStats).1,
   (C2_result_shape cfgW envErr "u" initStats).2 "Target closed" (by decide)⟩

/-- C7: the statistics invariant (average successful duration equals
cumulative successful duration over successful count when the count is
positive, and 0 when it is 0) holds after reset and is preserved by every
attempt completion; moreover a failed attempt increments only the failed
counter, leaving the successful counter and both durations unchanged. -/
theorem C7_stats_invariant (cfg : Config) (env : AttemptEnv) (url : String) (st : Stats)
    (h : StatsInv st) :
    StatsInv (extract_single cfg env url st).2 ∧ StatsInv reset_stats ∧
    ((extract_single cfg env url st).1.success = false →
      (extract_single cfg env url st).2 = { st with failed := st.failed + 1 }) := by
  refine ⟨?_, ?_, ?_⟩
  · cases hc : env.closeError with
    | some e =>
      simp only [extract_single, hc]
      exact ⟨fun h0 => h.1 h0, fun hp => h.2 hp⟩
    | none =>
      by_cases hf : pyTruthy (runSlot cfg.m3u8_patterns (delivered cfg env)) = true
      · simp only [extract_single, hc, hf, if_true]
        exact ⟨fun h0 => absurd h0 (Nat.succ_ne_zero _), fun _ => rfl⟩
      · simp only [extract_single, hc, hf, if_false]
        exact ⟨fun h0 => h.1 h0, fun hp => h.2 hp⟩
  · exact ⟨fun _ => rfl, fun hp => absurd hp (by simp [reset_stats])⟩
  · intro hs
    cases hc : env.closeError with
    | some e => simp [extract_single, hc]
    | none =>
      by_cases hf : pyTruthy (runSlot cfg.m3u8_patterns (delivered cfg env)) = true
      · exact absurd (by simp [extract_single, hc, hf] : (extract_single cfg env url st).1.success = true)
          (by simp [hs])
      · simp [extract_single, hc, hf]

/-- C7 witness: the invariant holds for the initial statistics and is
preserved through a concrete successful attempt, and reset restores it. -/
theorem C7_witness :
    StatsInv initStats ∧
    (StatsInv (extract_single cfgW envOk "u" initStats).2 ∧ StatsInv reset_stats ∧
     ((extract_single cfgW envOk "u" initStats).1.success = false →
       (extract_single cfgW envOk "u" initStats).2 = { initStats with failed := initStats.failed + 1 })) :=
  ⟨by constructor <;> intro h0 <;> simp [initStats, StatsInv] at h0 ⊢,
   C7_stats_invariant cfgW envOk "u" initStats
     (by constructor <;> intro h0 <;> simp [initStats, StatsInv] at h0 ⊢)⟩

end M3U8

namespace M3U8

/-- C4 counterexample: with no response ever observed and navigation
settling at 1000 ms, well before the 20000 ms timeout, the attempt ends at
1000 ms with a failure — navigation completing with no manifest found ends
the race by itself, contradicting the claim that the page-load signal alone
never concludes failure before the timeout. -/
theorem C4_counterexample :
    envC4.responses = [] ∧ envC4.gotoAt = some 1000 ∧ (1000 : ℚ) < cfgW.timeout ∧
    (extract_single cfgW envC4 "https://embed.example/1" initStats).1 =
      { embedUrl := "https://embed.example/1", m3u8Url := none, success := false,
        time := 1000, error := some "M3U8 URL not found within timeout" } := by
  decide

/-- C4 amended: when the navigation task settles at time `t` no later than
the timeout and no observed response ever matches a pattern, the race ends
at `t` — navigation completion alone DOES end the race — and the extractor
immediately concludes failure at that instant (the source races the goto
task with `FIRST_COMPLETED`, as the design notes on source fidelity state). -/
theorem C4_amended (cfg : Config) (env : AttemptEnv) (url : String) (st : Stats) (t : ℚ)
    (hce : env.closeError = none) (hnm : futureAt cfg.m3u8_patterns env.responses = none)
    (hg : env.gotoAt = some t) (ht : t ≤ cfg.timeout) :
    (extract_single cfg env url st).1.success = false ∧
    (extract_single cfg env url st).1.time = t ∧
    (extract_single cfg env url st).1.error = some "M3U8 URL not found within timeout" := by
  have hre : raceEnd cfg env = t := by
    rw [raceEnd, hnm, hg]
    simp only [optMin]
    exact min_eq_right ht
  have hfound : runSlot cfg.m3u8_patterns (delivered cfg env) = none := by
    apply runSlot_stays_none
    intro u hu
    simp only [delivered, List.mem_map, List.mem_filter] at hu
    obtain ⟨r, ⟨hr, _⟩, rfl⟩ := hu
    have hfind : env.responses.find? (fun r => matchesAny cfg.m3u8_patterns r.2) = none := by
      have := hnm
      rw [futureAt] at this
      exact Option.map_eq_none.mp this
    have := List.find?_eq_none.mp hfind r hr
    simpa using this
  refine ⟨?_, ?_, ?_⟩ <;>
    simp only [extract_single, hce] <;> simp [hfound, pyTruthy, hre]

/-- C4 amended witness: the amended statement at the concrete environment
of the counterexample. -/
theorem C4_witness :
    (envC4.closeError = none ∧ futureAt cfgW.m3u8_patterns envC4.responses = none ∧
     envC4.gotoAt = some 1000 ∧ (1000 : ℚ) ≤ cfgW.timeout) ∧
    ((extract_single cfgW envC4 "https://embed.example/2" initStats).1.success = false ∧
     (extract_single cfgW envC4 "https://embed.example/2" initStats).1.time = 1000 ∧
     (extract_single cfgW envC4 "https://embed.example/2" initStats).1.error =
       some "M3U8 URL not found within timeout") :=
  ⟨⟨by decide, by decide, by decide, by decide⟩,
   C4_amended cfgW envC4 "https://embed.example/2" initStats 1000 (by decide) (by decide)
     (by decide) (by decide)⟩

/-- C8 counterexample: with a configured pattern matching the empty URL, the
first matching observation (the empty string) is recorded in the slot, yet a
later matching observation replaces it — the recorded URL is not immutable,
because the `if found_m3u8:` guard treats the recorded empty string as
falsy. -/
theorem C8_counterexample :
    runSlot [""] [""] = some "" ∧
    matchesAny [""] "" = true ∧
    runSlot [""] ["", "x.m3u8"] = some "x.m3u8" := by
  decide

/-- C8 amended: the found-manifest slot is write-once for every non-empty
(truthy) recorded URL: once a non-empty URL is recorded, every later
observation leaves it unchanged; and a first matching non-empty URL is
recorded immediately.  Only an empty-string match (possible only under a
pattern matching the empty URL) can later be overwritten. -/
theorem C8_amended (patterns : List String) (s u : String) (urls rest : List String)
    (hs : s ≠ "") (hm : matchesAny patterns u = true) (hu : u ≠ "") :
    List.foldl (handle_response patterns) (some s) urls = some s ∧
    runSlot patterns (u :: rest) = some u := by
  have stable : ∀ (v : String), v ≠ "" →
      ∀ (l : List String), List.foldl (handle_response patterns) (some v) l = some v := by
    intro v hv l
    induction l with
    | nil => rfl
    | cons w l' ih =>
      have h0 : handle_response patterns (some v) w = some v := by
        simp [handle_response, pyTruthy, hv]
      rw [List.foldl_cons, h0, ih]
  refine ⟨stable s hs urls, ?_⟩
  rw [runSlot, List.foldl_cons]
  have h0 : handle_response patterns none u = some u := by
    simp [handle_response, pyTruthy, hm]
  rw [h0]
  exact stable u hu rest

/-- C8 amended witness: a concrete non-empty recorded URL survives later
matching observations, and a first non-empty match is recorded. -/
theorem C8_witness :
    ("a.m3u8" ≠ "" ∧ matchesAny cfgW.m3u8_patterns "x.m3u8" = true ∧ "x.m3u8" ≠ "") ∧
    (List.foldl (handle_response cfgW.m3u8_patterns) (some "a.m3u8") ["b.m3u8"] = some "a.m3u8" ∧
     runSlot cfgW.m3u8_patterns ("x.m3u8" :: ["c.m3u8"]) = some "x.m3u8") :=
  ⟨⟨by decide, by decide, by decide⟩,
   C8_amended cfgW.m3u8_patterns "a.m3u8" "x.m3u8" ["b.m3u8"] ["c.m3u8"] (by decide) (by decide)
     (by decide)⟩

end M3U8

namespace M3U8

/-- C3: a batch run returns one result per input URL in input order: the
output has the input's length, and the result at position `i` is the result
of extracting the URL at position `i`, attempts being numbered in dispatch
order (groups in order, dispatch order within a group, groups appended in
order). -/
theorem C3_batch_order (cfg : Config) (orc : Nat → AttemptEnv) (urls : List String)
    (s : RunState) (i : Nat) (hc : 0 < cfg.concurrency) (hi : i < urls.length) :
    (extract_batch cfg orc urls s).1.length = urls.length ∧
    (extract_batch cfg orc urls s).1[i]? =
      some (resultOf cfg (orc (s.log.length + i)) (urls.get ⟨i, hi⟩)) := by
  rw [extract_batch_eq cfg orc urls s hc]
  exact ⟨runGroup_length cfg orc urls s, runGroup_getElem cfg orc urls s i hi⟩

/-- C3 witness: a concrete three-URL batch over a two-session pool keeps
input order; position 1 holds the result for the second URL under the
second attempt environment. -/
theorem C3_witness :
    (0 < cfgR3.concurrency ∧ 1 < (["a", "b", "c"] : List String).length) ∧
    ((extract_batch cfgR3 orcW ["a", "b", "c"] s0).1.length =
        (["a", "b", "c"] : List String).length ∧
     (extract_batch cfgR3 orcW ["a", "b", "c"] s0).1[1]? =
       some (resultOf cfgR3 (orcW (s0.log.length + 1))
         ((["a", "b", "c"] : List String).get ⟨1, by decide⟩))) :=
  ⟨⟨by decide, by decide⟩, C3_batch_order cfgR3 orcW ["a", "b", "c"] s0 1 (by decide) (by decide)⟩

/-- C1: the post-retry output of `extract` has exactly the input's length;
when the retry pass runs, the output is the merge of the first pass with
the retry pass, and the merge keeps every position's length and replaces in
place: a position whose URL has no successful retry result keeps its
original entry unchanged (in particular when the retry also failed), while a
successful retry result replaces the entry at every position with its URL —
nothing is ever added or dropped. -/
theorem C1_extract_post_retry (cfg : Config) (orc : Nat → AttemptEnv) (urls : List String)
    (s : RunState) (results rrs : List ExtractionResult) (i : Nat) (r : ExtractionResult)
    (hc : 0 < cfg.concurrency) (hr : results[i]? = some r) :
    (extract cfg orc urls s).1.length = urls.length ∧
    (mergeRetries results rrs).length = results.length ∧
    (cfg.retries > 0 →
      ((extract_batch cfg orc urls s).1.filter (fun x => !x.success)).isEmpty = false →
      (extract cfg orc urls s).1 =
        mergeRetries (extract_batch cfg orc urls s).1
          (extract_batch cfg orc
            (((extract_batch cfg orc urls s).1.filter (fun x => !x.success)).map
              (fun x => x.embedUrl))
            (extract_batch cfg orc urls s).2).1) ∧
    ((∀ rr ∈ rrs, rr.embedUrl = r.embedUrl → rr.success = false) →
      (mergeRetries results rrs)[i]? = some r) ∧
    (∀ rr ∈ rrs, rr.success = true → rr.embedUrl = r.embedUrl →
      ∃ rr' ∈ rrs, rr'.success = true ∧ rr'.embedUrl = r.embedUrl ∧
        (mergeRetries results rrs)[i]? = some rr') := by
  refine ⟨extract_length cfg orc urls s hc, mergeRetries_length rrs results, ?_, ?_, ?_⟩
  · intro h1 h2
    simp only [extract]
    rw [if_pos h1, if_neg (by simp [h2])]
  · intro hall
    obtain ⟨r', hget, hurl, hcase⟩ := mergeRetries_pointwise rrs results i r hr
    rcases hcase with ⟨he, _⟩ | ⟨hmem', hsucc'⟩
    · rw [hget, he]
    · exact absurd (hall r' hmem' hurl) (by simp [hsucc'])
  · intro rr hmem hsucc hurl
    obtain ⟨r', hget, hurl', hcase⟩ := mergeRetries_pointwise rrs results i r hr
    rcases hcase with ⟨_, hall⟩ | ⟨hmem', hsucc'⟩
    · exact absurd (hall rr hmem hurl) (by simp [hsucc])
    · exact ⟨r', hmem', hsucc', hurl', hget⟩

/-- C1 witness: a one-URL run whose first attempt fails and whose retry
succeeds produces a list of the input's length equal to the merge of the
two passes, and a merge in which the only retry result failed leaves the
original failed entry untouched. -/
theorem C1_witness :
    (0 < cfgW.concurrency ∧ ([rA] : List ExtractionResult)[0]? = some rA) ∧
    (extract cfgW orcW ["u"] s0).1.length = (["u"] : List String).length ∧
    (mergeRetries [rA] [rA]).length = ([rA] : List ExtractionResult).length ∧
    (extract cfgW orcW ["u"] s0).1 =
      mergeRetries (extract_batch cfgW orcW ["u"] s0).1
        (extract_batch cfgW orcW
          (((extract_batch cfgW orcW ["u"] s0).1.filter (fun x => !x.success)).map
            (fun x => x.embedUrl))
          (extract_batch cfgW orcW ["u"] s0).2).1 ∧
    (mergeRetries [rA] [rA])[0]? = some rA :=
  ⟨⟨by decide, by decide⟩,
   (C1_extract_post_retry cfgW orcW ["u"] s0 [rA] [rA] 0 rA (by decide) (by decide)).1,
   (C1_extract_post_retry cfgW orcW ["u"] s0 [rA] [rA] 0 rA (by decide) (by decide)).2.1,
   (C1_extract_post_retry cfgW orcW ["u"] s0 [rA] [rA] 0 rA (by decide) (by decide)).2.2.1
     (by decide) (by decide),
   (C1_extract_post_retry cfgW orcW ["u"] s0 [rA] [rA] 0 rA (by decide) (by decide)).2.2.2.1
     (by decide)⟩

/-- C10: the merge step replaces the entry at every position whose target
URL matches a successful retry result — with no requirement that the
original entry at that position failed — so with duplicated input URLs an
originally successful entry is also overwritten by the retry result for
that URL. -/
theorem C10_merge_overwrites (results rrs : List ExtractionResult) (i : Nat)
    (r rr : ExtractionResult) (hr : results[i]? = some r) (hmem : rr ∈ rrs)
    (hs : rr.success = true) (hu : rr.embedUrl = r.embedUrl) :
    (mergeRetries results rrs)[i]?.map (fun x => x.success) = some true ∧
    (mergeRetries results rrs)[i]?.map (fun x => x.embedUrl) = some r.embedUrl ∧
    (mergeRetries results rrs)[i]?.all (fun x => decide (x ∈ rrs)) = true := by
  obtain ⟨r', hget, hurl, hcase⟩ := mergeRetries_pointwise rrs results i r hr
  rcases hcase with ⟨_, hall⟩ | ⟨hmem', hsucc'⟩
  · exact absurd (hall rr hmem hu) (by simp [hs])
  · rw [hget]
    refine ⟨by simp [hsucc'], by simp [hurl], ?_⟩
    simp only [Option.all_some, decide_eq_true_eq]
    exact hmem'

/-- C10 witness: the original entry at position 0 already succeeded, yet the
successful retry result for the same URL overwrites it. -/
theorem C10_witness :
    (([rOk] : List ExtractionResult)[0]? = some rOk ∧ rNew ∈ [rNew] ∧
     rNew.success = true ∧ rNew.embedUrl = rOk.embedUrl ∧ rOk.success = true ∧
     rNew ≠ rOk) ∧
    ((mergeRetries [rOk] [rNew])[0]?.map (fun x => x.success) = some true ∧
     (mergeRetries [rOk] [rNew])[0]?.map (fun x => x.embedUrl) = some rOk.embedUrl ∧
     (mergeRetries [rOk] [rNew])[0]?.all (fun x => decide (x ∈ [rNew])) = true) :=
  ⟨⟨by decide, by decide, by decide, by decide, by decide, by decide⟩,
   C10_merge_overwrites [rOk] [rNew] 0 rOk rNew (by decide) (by decide) (by decide) (by decide)⟩

end M3U8

namespace M3U8

/-- C5: with `retries = 0` the attempt log after `extract` is exactly the
input appended to the prior log — every input position is attempted exactly
once, even when it fails; with `retries > 0` the log gains exactly one
further pass, over the failed URLs of the first pass in their original
relative order (a sublist of the input).  `retries` is only tested for
positivity: its magnitude is arbitrary here, so any value above zero yields
the same single extra pass. -/
theorem C5_single_retry_pass (cfg : Config) (orc : Nat → AttemptEnv) (urls : List String)
    (s : RunState) (hc : 0 < cfg.concurrency) :
    (cfg.retries = 0 → (extract cfg orc urls s).2.log = s.log ++ urls) ∧
    (0 < cfg.retries →
      (extract cfg orc urls s).2.log =
        s.log ++ urls ++
          (((extract_batch cfg orc urls s).1.filter (fun x => !x.success)).map
            (fun x => x.embedUrl)) ∧
      ((((extract_batch cfg orc urls s).1.filter (fun x => !x.success)).map
          (fun x => x.embedUrl)).Sublist urls)) := by
  constructor
  · intro h0
    rw [extract_state_zero cfg orc urls s h0]
    exact extract_batch_log cfg orc urls s hc
  · intro h0
    refine ⟨?_, failedUrls_sublist cfg orc urls s hc⟩
    rw [extract_snd_pos cfg orc urls s h0,
      extract_batch_log cfg orc
        (((extract_batch cfg orc urls s).1.filter (fun x => !x.success)).map
          (fun x => x.embedUrl))
        (extract_batch cfg orc urls s).2 hc,
      extract_batch_log cfg orc urls s hc]

/-- C5 witness: with `retries = 3` a one-URL run whose first attempt fails
performs exactly one extra pass over that URL. -/
theorem C5_witness :
    (0 < cfgR3.concurrency ∧ 0 < cfgR3.retries) ∧
    ((extract cfgR3 orcW ["u"] s0).2.log =
       s0.log ++ ["u"] ++
         (((extract_batch cfgR3 orcW ["u"] s0).1.filter (fun x => !x.success)).map
           (fun x => x.embedUrl)) ∧
     ((((extract_batch cfgR3 orcW ["u"] s0).1.filter (fun x => !x.success)).map
         (fun x => x.embedUrl)).Sublist ["u"])) :=
  ⟨⟨by decide, by decide⟩, (C5_single_retry_pass cfgR3 orcW ["u"] s0 (by decide)).2 (by decide)⟩

/-- C6: the batch scheduler partitions its input into consecutive groups of
at most `concurrency` URLs whose concatenation is the whole input, and in
the dispatch schedule — all of a group's attempts dispatched, then all
settled before the next group starts — the number of in-flight attempts
never exceeds `concurrency` after any prefix of the schedule. -/
theorem C6_bounded_concurrency (cfg : Config) (urls : List String) (p t : List BatchEvent)
    (hc : 0 < cfg.concurrency) (hp : p ++ t = batchTrace cfg urls) :
    listJoin (chunkList cfg.concurrency urls) = urls ∧
    (∀ g ∈ chunkList cfg.concurrency urls, g.length ≤ cfg.concurrency) ∧
    inflight p ≤ (cfg.concurrency : Int) := by
  refine ⟨chunkList_join cfg.concurrency hc urls, ?_, ?_⟩
  · intro g hg
    exact chunkGo_mem_length cfg.concurrency urls.length urls g hg
  · exact joinTrace_bound cfg.concurrency (chunkList cfg.concurrency urls)
      (fun g hg => chunkGo_mem_length cfg.concurrency urls.length urls g hg) p t hp

/-- C6 witness: three URLs over a pool of two; after the prefix that
dispatches the whole first group, exactly two attempts are in flight, within
the bound. -/
theorem C6_witness :
    (0 < cfgR3.concurrency ∧
     [BatchEvent.dispatch "a", BatchEvent.dispatch "b"] ++
       [BatchEvent.settle "a", BatchEvent.settle "b", BatchEvent.dispatch "c",
        BatchEvent.settle "c"] = batchTrace cfgR3 ["a", "b", "c"]) ∧
    (listJoin (chunkList cfgR3.concurrency ["a", "b", "c"]) = ["a", "b", "c"] ∧
     inflight [BatchEvent.dispatch "a", BatchEvent.dispatch "b"] ≤ (cfgR3.concurrency : Int)) :=
  ⟨⟨by decide, by decide⟩,
   (C6_bounded_concurrency cfgR3 ["a", "b", "c"]
     [BatchEvent.dispatch "a", BatchEvent.dispatch "b"]
     [BatchEvent.settle "a", BatchEvent.settle "b", BatchEvent.dispatch "c",
      BatchEvent.settle "c"] (by decide) (by decide)).1,
   (C6_bounded_concurrency cfgR3 ["a", "b", "c"]
     [BatchEvent.dispatch "a", BatchEvent.dispatch "b"]
     [BatchEvent.settle "a", BatchEvent.settle "b", BatchEvent.dispatch "c",
      BatchEvent.settle "c"] (by decide) (by decide)).2.2⟩

/-- C9 counterexample: calling `close` on a never-initialized extractor is
not an error-free no-op — `__init__` never assigns `self.playwright`, so
`close` reaches `self.playwright.stop()` and the attribute access raises —
contradicting the claim that teardown is safe on a pool that was never
initialized. -/
theorem C9_counterexample :
    initialPool.contexts = 0 ∧ initialPool.browser = false ∧
    initialPool.playwrightSet = false ∧
    (close initialPool).raised =
      some "AttributeError: M3U8Extractor object has no attribute playwright" := by
  decide

/-- C9 amended: on any state whose engine handle is set — as `initialize`
leaves it — `close` raises nothing, closes every session, then the browser
when present, then stops the engine, in that order, and empties the pool;
calling `close` again on the resulting state raises nothing, changes
nothing, and only re-stops the engine, so teardown is idempotent and safe on
an already-empty pool.  Only a never-initialized extractor makes `close`
raise. -/
theorem C9_amended (s : PoolState) (h : s.playwrightSet = true) :
    (close s).raised = none ∧
    (close s).acts =
      List.replicate s.contexts CloseAct.closeContext ++
        (if s.browser then [CloseAct.closeBrowser] else []) ++ [CloseAct.stopPlaywright] ∧
    (close s).state.contexts = 0 ∧ (close s).state.browser = false ∧
    (close (close s).state).raised = none ∧
    (close (close s).state).state = (close s).state ∧
    (close (close s).state).acts = [CloseAct.stopPlaywright] := by
  simp [close, h]

/-- C9 amended witness: the amended statement at the state reached by
initializing a default-configuration extractor. -/
theorem C9_witness :
    ((initPool cfgW initialPool).playwrightSet = true) ∧
    ((close (initPool cfgW initialPool)).raised = none ∧
     (close (initPool cfgW initialPool)).acts =
       List.replicate (initPool cfgW initialPool).contexts CloseAct.closeContext ++
         (if (initPool cfgW initialPool).browser then [CloseAct.closeBrowser] else []) ++
         [CloseAct.stopPlaywright] ∧
     (close (initPool cfgW initialPool)).state.contexts = 0 ∧
     (close (initPool cfgW initialPool)).state.browser = false ∧
     (close (close (initPool cfgW initialPool)).state).raised = none ∧
     (close (close (initPool cfgW initialPool)).state).state =
       (close (initPool cfgW initialPool)).state ∧
     (close (close (initPool cfgW initialPool)).state).acts = [CloseAct.stopPlaywright]) :=
  ⟨by decide, C9_amended (initPool cfgW initialPool) (by decide)⟩

end M3U8
